import Mathlib

/-!
Verification of the esrlabs estd bounded inline vector and assertion
facility, shallowly embedded from `src/include/estd/vector.h`,
`src/include/estd/assert.h` and `src/src/estd/assert.cpp`.

The vector `esrlabs::estd::vector<T>` owns a byte buffer of capacity
`_max_size` elements and a logical size `_size`; the live elements are
the slots `[0, _size)`.  We model the live elements as a `List` and the
capacity as a `Nat`.  Each mutating operation is translated line by
line from the source; where the source calls `estd_assert(cond)` the
model records whether the assertion fired (`cond` was false) as a
`Bool` in the result, since with a returning (e.g. null) handler the
C++ code continues past a failed assertion exactly as modelled here.
-/

namespace Estd

/-- The live contents (`slots [0, _size)`) and fixed capacity
(`_max_size`) of an `esrlabs::estd::vector<T>`. -/
structure Vec (α : Type) where
  data : List α
  maxSize : Nat

/-- `vector<T>::size()`: returns `_size`. -/
def Vec.size {α : Type} (v : Vec α) : Nat :=
  v.data.length

/-- `vector<T>::full()`: `_size == _max_size`. -/
def Vec.full {α : Type} (v : Vec α) : Bool :=
  v.size == v.maxSize

/-- `vector<T>::push_back(const_reference value)`:
`estd_assert(!full()); new(&_data[sizeof(T) * _size++])T(value);`.
The assertion fires iff the vector is full; the element is then
copy-constructed at slot `_size` and the size incremented regardless
(the code continues when the assertion handler returns). -/
def Vec.push_back {α : Type} (v : Vec α) (x : α) : Vec α × Bool :=
  (⟨v.data ++ [x], v.maxSize⟩, v.full)

/-- `vector<T>::pop_back()`:
`estd_assert(size() > 0); reinterpret_cast<T*>(&_data[sizeof(T) * _size--])->~T();`.
The post-decrement passes the OLD `_size` to the indexing expression,
so the destructor runs on slot `_size` (one past the last live
element); the live range shrinks to `[0, _size - 1)`.  Result:
(new state, index of the slot whose destructor ran, assertion fired). -/
def Vec.pop_back {α : Type} (v : Vec α) : Vec α × Nat × Bool :=
  (⟨v.data.dropLast, v.maxSize⟩, v.size, !(decide (0 < v.size)))

/-- `vector<T>::insert(const_iterator position, const_reference value)`:
`estd_assert(size() < max_size());` then `memmove(dst + 1, position, ...)`
shifts the live tail `[p, size)` right by one slot, `new(dst)T(value)`
constructs the value at `p`, `++_size`, and `dst` (index `p`) is
returned.  Result: (new state, returned iterator index, assertion fired). -/
def Vec.insert {α : Type} (v : Vec α) (p : Nat) (x : α) : Vec α × Nat × Bool :=
  (⟨v.data.take p ++ x :: v.data.drop p, v.maxSize⟩, p,
    !(decide (v.size < v.maxSize)))

/-- `vector<T>::erase(const_iterator position)`:
`if (position == cend()) return item;` then `estd_assert(size() > 0);
item->~T();` destructs at `p`, `memmove` shifts `[p+1, size)` left by
one, `--_size`.  Result: (new state, returned iterator index,
assertion fired). -/
def Vec.erase {α : Type} (v : Vec α) (p : Nat) : Vec α × Nat × Bool :=
  if p = v.size then (v, p, false)
  else (⟨v.data.take p ++ v.data.drop (p + 1), v.maxSize⟩, p,
    !(decide (0 < v.size)))

/-- `vector<T>::erase(const_iterator first, const_iterator last)`:
`estd_assert(last <= cend()); if (last < first) { return iterator(last); }`
then destructs each element of `[first, last)`, `memmove` shifts the
tail `[last, size)` down to `first`, `_size -= (last - first)`, and
`first` is returned. -/
def Vec.eraseRange {α : Type} (v : Vec α) (first last : Nat) : Vec α × Nat × Bool :=
  let fired := !(decide (last ≤ v.size))
  if last < first then (v, last, fired)
  else (⟨v.data.take first ++ v.data.drop last, v.maxSize⟩, first, fired)

/-- `vector<T>::clear()`: destroys all live elements and sets `_size = 0`. -/
def Vec.clear {α : Type} (v : Vec α) : Vec α :=
  (⟨[], v.maxSize⟩ : Vec α)

/-- `vector<T>::emplace_back().construct(value)`:
`estd_assert(!full());` reserves slot `_size` (incrementing `_size`)
and the constructor object then placement-constructs the value there. -/
def Vec.emplace_construct {α : Type} (v : Vec α) (x : α) : Vec α × Bool :=
  (⟨v.data ++ [x], v.maxSize⟩, v.full)

/-- The loop of `vector<T>::assign(size_type n, const_reference value)`:
`while (n > 0) { emplace_back().construct(value); --n; }`, also
reporting whether any iteration's assertion fired. -/
def Vec.assignLoop {α : Type} (x : α) : Nat → Vec α → Vec α × Bool
  | 0, v => (v, false)
  | Nat.succ k, v =>
    let r := v.emplace_construct x
    let r2 := Vec.assignLoop x k r.1
    (r2.1, r.2 || r2.2)

/-- `vector<T>::assign(size_type n, const_reference value)`:
`clear(); n = std::min(n, max_size()); while (n > 0) { emplace_back().construct(value); --n; }`. -/
def Vec.assign {α : Type} (v : Vec α) (n : Nat) (x : α) : Vec α × Bool :=
  Vec.assignLoop x (min n v.maxSize) v.clear

/-- `vector<T>::swap(vector<T>& other)`:
`std::swap(_data, other._data); std::swap(_max_size, other._max_size);
std::swap(_size, other._size);` — the buffer, capacity and size are all
exchanged. -/
def Vec.swap {α : Type} (a b : Vec α) : Vec α × Vec α :=
  ((⟨b.data, b.maxSize⟩ : Vec α), (⟨a.data, a.maxSize⟩ : Vec α))

/-- `std::lexicographical_compare(f1, l1, f2, l2)` with `operator<`
given as a boolean relation: true iff the first range is
lexicographically less than the second. -/
def lexLess {α : Type} (lt : α → α → Bool) : List α → List α → Bool
  | _, [] => false
  | [], _ :: _ => true
  | a :: as, b :: bs =>
    if lt a b then true else if lt b a then false else lexLess lt as bs

/-- `operator<(const vector<T>& x, const vector<T>& y)`:
`(x.size() == y.size()) && std::lexicographical_compare(x.begin(), x.end(), y.begin(), y.end())`. -/
def Vec.ltOp {α : Type} (lt : α → α → Bool) (x y : Vec α) : Bool :=
  (x.size == y.size) && lexLess lt x.data y.data

/-- `operator>(x, y)`: `(y < x)`. -/
def Vec.gtOp {α : Type} (lt : α → α → Bool) (x y : Vec α) : Bool :=
  Vec.ltOp lt y x

/-- `operator>=(x, y)`: `!(y > x)`. -/
def Vec.geOp {α : Type} (lt : α → α → Bool) (x y : Vec α) : Bool :=
  !(Vec.gtOp lt y x)

/-- `operator<=(x, y)`: `!(x > y)`. -/
def Vec.leOp {α : Type} (lt : α → α → Bool) (x y : Vec α) : Bool :=
  !(Vec.gtOp lt x y)

/-- One public mutating operation on a single `vector<T>`. -/
inductive VOp (α : Type) where
  | pushOp (x : α)
  | popOp
  | insertOp (p : Nat) (x : α)
  | eraseOp (p : Nat)
  | eraseRangeOp (f l : Nat)
  | clearOp
  | assignOp (n : Nat) (x : α)
  | emplaceOp (x : α)

/-- The state transition of one public mutating operation (the
assertion flag and returned iterator, when any, are discarded). -/
def applyOp {α : Type} : VOp α → Vec α → Vec α
  | VOp.pushOp x, v => (v.push_back x).1
  | VOp.popOp, v => v.pop_back.1
  | VOp.insertOp p x, v => (v.insert p x).1
  | VOp.eraseOp p, v => (v.erase p).1
  | VOp.eraseRangeOp f l, v => (v.eraseRange f l).1
  | VOp.clearOp, v => v.clear
  | VOp.assignOp n x, v => (v.assign n x).1
  | VOp.emplaceOp x, v => (v.emplace_construct x).1

/-- One public operation on a pair of vectors: a unary operation on
either vector, or `a.swap(b)`. -/
inductive POp (α : Type) where
  | onFst (op : VOp α)
  | onSnd (op : VOp α)
  | swapOp

/-- Apply one pair operation. -/
def applyPOp {α : Type} : POp α → Vec α × Vec α → Vec α × Vec α
  | POp.onFst op, s => (applyOp op s.1, s.2)
  | POp.onSnd op, s => (s.1, applyOp op s.2)
  | POp.swapOp, s => Vec.swap s.1 s.2

/-- Run a sequence of pair operations. -/
def runPOps {α : Type} : List (POp α) → Vec α × Vec α → Vec α × Vec α
  | [], s => s
  | op :: rest, s => runPOps rest (applyPOp op s)

/-- The `(file, line, test)` arguments `estd_assert` passes to
`assert_func`. -/
structure AssertCtx where
  file : Option String
  line : Int
  test : Option String

/-- `assert_func(file, line, test)` from `assert.cpp`:
`if (global_assert_handler() != 0) { global_assert_handler()(file, line, test); }`.
The process-wide handler slot is passed explicitly (`none` models the
null function pointer); the result records the handler invocation that
took place, if any. -/
def assert_func {H : Type} (handler : Option H) (file : Option String)
    (line : Int) (test : Option String) : Option (H × AssertCtx) :=
  match handler with
  | none => none
  | some h => some (h, ⟨file, line, test⟩)

/-- The default `estd_assert(E)` macro:
`((E) ? (void)0 : assert_func((const char *)0, __LINE__, #E))` — when
the condition holds nothing happens, otherwise `assert_func` runs with
the currently installed handler. -/
def dispatch {H : Type} (handler : Option H) (fired : Bool)
    (c : AssertCtx) : Option (H × AssertCtx) :=
  if fired then assert_func handler c.file c.line c.test else none

/-- Construction and destruction events of `AssertHandlerScope`
objects.  `enter h` is `AssertHandlerScope(h)`:
`_current = get_assert_handler(); set_assert_handler(h);` — `leave` is
the destructor: `set_assert_handler(_current);`. -/
inductive AEvent (H : Type) where
  | enter (h : H)
  | leave

/-- Run a sequence of scope events over the state (installed handler,
stack of the `_current` members of the currently live scopes, innermost
first). -/
def runEvents {H : Type} : List (AEvent H) → H × List H → H × List H
  | [], s => s
  | AEvent.enter h :: rest, s => runEvents rest (h, s.1 :: s.2)
  | AEvent.leave :: rest, s =>
    match s.2 with
    | [] => runEvents rest s
    | h2 :: st2 => runEvents rest (h2, st2)

/-- Well-nested (balanced) sequences of scope enter/leave events: every
`leave` is the destructor of the innermost still-live scope. -/
inductive Balanced {H : Type} : List (AEvent H) → Prop where
  | nil : Balanced ([] : List (AEvent H))
  | wrap (h : H) {b1 b2 : List (AEvent H)} : Balanced b1 → Balanced b2 →
      Balanced (AEvent.enter h :: b1 ++ AEvent.leave :: b2)

theorem runEvents_append {H : Type} (l1 l2 : List (AEvent H))
    (s : H × List H) :
    runEvents (l1 ++ l2) s = runEvents l2 (runEvents l1 s) := by
  induction l1 generalizing s with
  | nil => rfl
  | cons e rest ih =>
    cases e with
    | enter h => simpa [runEvents] using ih _
    | leave =>
      rcases s with ⟨c, st⟩
      cases st with
      | nil => simpa [runEvents] using ih _
      | cons h2 st2 => simpa [runEvents] using ih _

theorem runEvents_balanced {H : Type} {evs : List (AEvent H)}
    (hb : Balanced evs) :
    ∀ s : H × List H, runEvents evs s = s := by
  induction hb with
  | nil => intro s; rfl
  | wrap h hb1 hb2 ih1 ih2 =>
    intro s
    simp [runEvents, runEvents_append, ih1, ih2]

theorem assignLoop_maxSize {α : Type} (x : α) (k : Nat) (v : Vec α) :
    (Vec.assignLoop x k v).1.maxSize = v.maxSize := by
  induction k generalizing v with
  | zero => rfl
  | succ k ih => simpa [Vec.assignLoop, Vec.emplace_construct] using ih _

theorem applyOp_maxSize {α : Type} (op : VOp α) (v : Vec α) :
    (applyOp op v).maxSize = v.maxSize := by
  cases op with
  | pushOp x => rfl
  | popOp => rfl
  | insertOp p x => rfl
  | eraseOp p =>
    simp only [applyOp, Vec.erase]
    split <;> rfl
  | eraseRangeOp f l =>
    simp only [applyOp, Vec.eraseRange]
    split <;> rfl
  | clearOp => rfl
  | assignOp n x =>
    simpa [applyOp, Vec.assign, Vec.clear] using
      assignLoop_maxSize x (min n v.maxSize) v.clear
  | emplaceOp x => rfl

/-!
Claim theorems.
-/

/-- Claim C1 (code evaluated at the failing input): on the vector
`[7]` of capacity 3 (size `s = 1`), `pop_back()` runs the destructor
on slot 1 — the old `_size`, one past the last live element — and not
on slot `s - 1 = 0`, while the size does decrease to 0.  The claim
(and the spec) require the destructor to run at slot `s - 1`. -/
theorem pop_back_destroys_slot_s :
    (Vec.pop_back (⟨[7], 3⟩ : Vec Nat)).2.1 = 1 ∧
    (Vec.pop_back (⟨[7], 3⟩ : Vec Nat)).2.1 ≠ 1 - 1 ∧
    (Vec.pop_back (⟨[7], 3⟩ : Vec Nat)).1.data = [] := by
  decide

/-- Claim C2 (code evaluated at the failing input): with `x = [0]` and
`y = [0, 1]`, the sequence of `x` is a proper prefix of that of `y`,
hence lexicographically less, but the source `operator<` returns
`false` because it first requires `x.size() == y.size()`.  The claim
requires `x < y` to hold exactly when `x` is lexicographically less
than `y`. -/
theorem ltOp_not_lexicographic :
    Vec.ltOp Nat.blt (⟨[0], 2⟩ : Vec Nat) (⟨[0, 1], 2⟩ : Vec Nat) = false ∧
    lexLess Nat.blt [0] [0, 1] = true := by
  decide

/-- Claim C3, counterexample: swapping an (empty) vector of capacity 2
with one of capacity 5 changes the first vector's `max_size()` from 2
to 5 — `vector<T>::swap` exchanges `_max_size` along with `_data` and
`_size`, so `max_size()` is not invariant under every public
operation. -/
theorem max_size_changed_by_swap :
    (runPOps [POp.swapOp]
      ((⟨[], 2⟩ : Vec Nat), (⟨[], 5⟩ : Vec Nat))).1.maxSize ≠ 2 := by
  decide

/-- Claim C3, amended: `max_size()` is unchanged by every public
operation on a single vector; `swap` exchanges the two vectors'
entire logical states (contents, size and capacity), so over any
sequence of pair operations the pair of capacities is either preserved
or exchanged. -/
theorem max_size_fixed_except_swap {α : Type} :
    (∀ (op : VOp α) (v : Vec α), (applyOp op v).maxSize = v.maxSize) ∧
    (∀ a b : Vec α, Vec.swap a b = (b, a)) ∧
    (∀ (ops : List (POp α)) (s : Vec α × Vec α),
      ((runPOps ops s).1.maxSize, (runPOps ops s).2.maxSize) =
        (s.1.maxSize, s.2.maxSize) ∨
      ((runPOps ops s).1.maxSize, (runPOps ops s).2.maxSize) =
        (s.2.maxSize, s.1.maxSize)) := by
  refine ⟨applyOp_maxSize, fun a b => rfl, ?_⟩
  intro ops
  induction ops with
  | nil => intro s; exact Or.inl rfl
  | cons op rest ih =>
    intro s
    have hstep : runPOps (op :: rest) s = runPOps rest (applyPOp op s) := rfl
    rw [hstep]
    rcases ih (applyPOp op s) with h | h <;> rw [h] <;>
      cases op with
      | onFst o =>
        simp [applyPOp, applyOp_maxSize]
      | onSnd o =>
        simp [applyPOp, applyOp_maxSize]
      | swapOp =>
        simp [applyPOp, Vec.swap]

/-- Claim C4: on a non-full vector, for any position `p` in
`[begin, end]`, `insert(p, v)` makes the element at `p` equal to `v`,
moves the elements previously at `[p, end)` to `[p+1, end+1)` in the
same relative order, increases the size by one, and returns an
iterator to the inserted element (and the capacity assertion does not
fire). -/
theorem insert_spec {α : Type} (v : Vec α) (p : Nat) (x : α)
    (hp : p ≤ v.size) (hfull : v.size < v.maxSize) :
    (v.insert p x).1.data[p]? = some x ∧
    (v.insert p x).1.data.drop (p + 1) = v.data.drop p ∧
    (v.insert p x).1.size = v.size + 1 ∧
    (v.insert p x).2.1 = p ∧
    (v.insert p x).2.2 = false := by
  have hlen : (v.data.take p).length = p := by
    simpa using Nat.min_eq_left hp
  refine ⟨?_, ?_, ?_, rfl, by simp [Vec.insert, hfull]⟩
  · rw [show (v.insert p x).1.data = v.data.take p ++ x :: v.data.drop p from rfl]
    rw [List.getElem?_append_right (by omega), hlen]
    simp
  · rw [show (v.insert p x).1.data = v.data.take p ++ x :: v.data.drop p from rfl]
    rw [show p + 1 = (v.data.take p).length + 1 by omega]
    rw [List.drop_append]
    simp
  · simp only [Vec.insert, Vec.size, List.length_append, List.length_cons,
      List.length_drop, hlen]
    unfold Vec.size at hp
    omega

/-- Claim C4, witness at `v = [10, 20]` (capacity 5), `p = 1`,
`x = 99`. -/
theorem insert_spec_witness :
    ((⟨[10, 20], 5⟩ : Vec Nat).insert 1 99).1.data[1]? = some 99 ∧
    ((⟨[10, 20], 5⟩ : Vec Nat).insert 1 99).1.data.drop (1 + 1) =
      (⟨[10, 20], 5⟩ : Vec Nat).data.drop 1 ∧
    ((⟨[10, 20], 5⟩ : Vec Nat).insert 1 99).1.size =
      (⟨[10, 20], 5⟩ : Vec Nat).size + 1 ∧
    ((⟨[10, 20], 5⟩ : Vec Nat).insert 1 99).2.1 = 1 ∧
    ((⟨[10, 20], 5⟩ : Vec Nat).insert 1 99).2.2 = false :=
  insert_spec (⟨[10, 20], 5⟩ : Vec Nat) 1 99 (by decide) (by decide)

theorem assignLoop_replicate {α : Type} (x : α) (k : Nat) :
    ∀ l : List α, ∀ N : Nat, l.length + k ≤ N →
      Vec.assignLoop x k (⟨l, N⟩ : Vec α) =
        ((⟨l ++ List.replicate k x, N⟩ : Vec α), false) := by
  induction k with
  | zero => intro l N h; simp [Vec.assignLoop]
  | succ k ih =>
    intro l N h
    have hfull : ((⟨l, N⟩ : Vec α).full) = false := by
      simp only [Vec.full, Vec.size, beq_eq_false_iff_ne, ne_eq]
      omega
    have ih2 := ih (l ++ [x]) N (by simp; omega)
    simp only [Vec.assignLoop, Vec.emplace_construct, hfull, ih2,
      Bool.false_or]
    simp [List.replicate_succ]

/-- Claim C5: for every vector of capacity `N` and every `n`
(including `n > N`), `assign(n, v)` results in size `min(n, N)` with
the contents being `min(n, N)` copies of `v`, and no assertion fires
(so the assertion handler is not invoked). -/
theorem assign_spec {α : Type} (v : Vec α) (n : Nat) (x : α) :
    (v.assign n x).1.data = List.replicate (min n v.maxSize) x ∧
    (v.assign n x).1.size = min n v.maxSize ∧
    (v.assign n x).2 = false := by
  have h := assignLoop_replicate x (min n v.maxSize) [] v.maxSize
    (by simp [Nat.min_le_right])
  refine ⟨?_, ?_, ?_⟩ <;>
    simp [Vec.assign, Vec.clear, h, Vec.size]

/-- Claim C6: `AssertHandlerScope(h)` installs `h` and saves the
previously installed handler; its destructor restores exactly that
saved handler; and any balanced (well-nested, LIFO) sequence of scope
constructions and destructions returns the installed handler — and
the whole stack of saved handlers — to its original state. -/
theorem assert_scope_round_trip {H : Type} (h c : H) (st : List H)
    (evs : List (AEvent H)) (hb : Balanced evs) :
    runEvents [AEvent.enter h] (c, st) = (h, c :: st) ∧
    runEvents [AEvent.leave] (h, c :: st) = (c, st) ∧
    runEvents evs (c, st) = (c, st) :=
  ⟨rfl, rfl, runEvents_balanced hb (c, st)⟩

/-- Claim C6, witness: handlers numbered by `Nat`, initial handler 0,
nested scopes installing 1 then 2, unwound in LIFO order. -/
theorem assert_scope_round_trip_witness :
    runEvents [AEvent.enter 1] (0, ([] : List Nat)) = (1, [0]) ∧
    runEvents [AEvent.leave] (1, [0]) = (0, ([] : List Nat)) ∧
    runEvents [AEvent.enter 1, AEvent.enter 2, AEvent.leave, AEvent.leave]
      (0, ([] : List Nat)) = (0, ([] : List Nat)) :=
  assert_scope_round_trip 1 0 [] _
    (Balanced.wrap 1 (Balanced.wrap 2 Balanced.nil Balanced.nil) Balanced.nil)

/-- Claim C7: `push_back(v)` on a full vector fires the `!full()`
assertion, and the dispatch through `estd_assert` invokes the
currently installed handler with the failing predicate context
(null file, the line of the check, the predicate text). -/
theorem push_back_full_asserts {α H : Type} (v : Vec α) (x : α) (h : H)
    (hfull : v.size = v.maxSize) :
    (v.push_back x).2 = true ∧
    dispatch (some h) (v.push_back x).2
        (⟨none, 918, some "!full()"⟩ : AssertCtx) =
      some (h, (⟨none, 918, some "!full()"⟩ : AssertCtx)) := by
  have hfired : (v.push_back x).2 = true := by
    simp [Vec.push_back, Vec.full, hfull]
  exact ⟨hfired, by simp [dispatch, hfired, assert_func]⟩

/-- Claim C7, witness: the full vector `[5]` of capacity 1, pushing 9,
with handler 0 installed. -/
theorem push_back_full_asserts_witness :
    ((⟨[5], 1⟩ : Vec Nat).push_back 9).2 = true ∧
    dispatch (some 0) ((⟨[5], 1⟩ : Vec Nat).push_back 9).2
        (⟨none, 918, some "!full()"⟩ : AssertCtx) =
      some (0, (⟨none, 918, some "!full()"⟩ : AssertCtx)) :=
  push_back_full_asserts (⟨[5], 1⟩ : Vec Nat) 9 0 (by decide)

/-- Claim C8: for every vector, including the empty one,
`erase(end())` returns `end()` (index `size`), fires no assertion,
and leaves the vector — size and all elements — unchanged. -/
theorem erase_end_noop {α : Type} (v : Vec α) :
    v.erase v.size = (v, v.size, false) := by
  simp [Vec.erase]

/-- Claim C9: for positions `first`, `last` within `[begin, end]` with
`last < first`, `erase(first, last)` returns `last`, fires no
assertion (the `last <= cend()` check passes), and leaves the vector
unchanged. -/
theorem erase_range_reversed {α : Type} (v : Vec α) (first last : Nat)
    (_hf : first ≤ v.size) (hl : last ≤ v.size) (hrev : last < first) :
    v.eraseRange first last = (v, last, false) := by
  simp [Vec.eraseRange, hl, hrev]

/-- Claim C9, witness: `v = [1, 2, 3]` of capacity 4, `first = 3`,
`last = 1`. -/
theorem erase_range_reversed_witness :
    (⟨[1, 2, 3], 4⟩ : Vec Nat).eraseRange 3 1 =
      ((⟨[1, 2, 3], 4⟩ : Vec Nat), 1, false) :=
  erase_range_reversed (⟨[1, 2, 3], 4⟩ : Vec Nat) 3 1
    (by decide) (by decide) (by decide)

/-- Claim C10: with the handler slot holding the null pointer,
`assert_func` invokes no handler at all and returns normally with no
effect, for every context; consequently a contract-violating
operation continues — `push_back` on a full vector still constructs
the element past the live range and increments the size. -/
theorem null_handler_ignored {α H : Type} :
    (∀ (file : Option String) (line : Int) (test : Option String),
      assert_func (none : Option H) file line test = none) ∧
    (∀ (v : Vec α) (x : α), v.size = v.maxSize →
      (v.push_back x).1.data = v.data ++ [x] ∧
      (v.push_back x).1.size = v.size + 1 ∧
      (v.push_back x).2 = true) :=
  ⟨fun _ _ _ => rfl,
   fun v x hfull =>
    ⟨rfl, by simp [Vec.push_back, Vec.size],
     by simp [Vec.push_back, Vec.full, hfull]⟩⟩

/-- Claim C10, witness: null handler with a concrete context, and the
full vector `[5]` of capacity 1 pushed with 9 still grows to
`[5, 9]`. -/
theorem null_handler_ignored_witness :
    assert_func (none : Option Nat) none 918 (some "!full()") = none ∧
    (((⟨[5], 1⟩ : Vec Nat).push_back 9).1.data = [5] ++ [9] ∧
     ((⟨[5], 1⟩ : Vec Nat).push_back 9).1.size =
       (⟨[5], 1⟩ : Vec Nat).size + 1 ∧
     ((⟨[5], 1⟩ : Vec Nat).push_back 9).2 = true) :=
  ⟨(null_handler_ignored (α := Nat) (H := Nat)).1 none 918 (some "!full()"),
   (null_handler_ignored (α := Nat) (H := Nat)).2
     (⟨[5], 1⟩ : Vec Nat) 9 (by decide)⟩

end Estd
